import Mathlib

/-!
Shallow embedding of the frame-synchronization and swapchain-lifecycle core
of the `al-engine` Vulkan renderer (`src/renderer/{swapchain,sync,buffers,vulkan_app}.rs`).
Machine integers are modelled as `Nat` with explicit sentinels where the code
compares against them; Vulkan handles and enums become inductive types;
fallible paths (Rust `panic!`/`expect`) become `Option`/`none`.
-/

namespace AlEngine

/-- Constant `MAX_FRAMES_IN_FLIGHT` from `src/renderer.rs`. -/
def MAX_FRAMES_IN_FLIGHT : Nat := 2

/-- Constant `WINDOW_WIDTH` from `src/renderer.rs`. -/
def WINDOW_WIDTH : Nat := 800

/-- Constant `WINDOW_HEIGHT` from `src/renderer.rs`. -/
def WINDOW_HEIGHT : Nat := 600

/-- Sentinel `u32::max_value()` used by `choose_swapchain_extent`. -/
def U32_MAX : Nat := 2 ^ 32 - 1

/-- Unbounded timeout `std::u64::MAX` passed to `wait_for_fences` and `acquire_next_image`. -/
def U64_MAX : Nat := 2 ^ 64 - 1

/-- Model of `vk::Format`; the code only inspects `B8G8R8A8_UNORM`, all other
values are carried opaquely. -/
inductive Format where
  | b8g8r8a8Unorm : Format
  | otherFormat : Nat → Format
deriving DecidableEq

/-- Model of `vk::ColorSpaceKHR`; the code only inspects `SRGB_NONLINEAR`. -/
inductive ColorSpace where
  | srgbNonlinear : ColorSpace
  | otherColorSpace : Nat → ColorSpace
deriving DecidableEq

/-- Model of `vk::PresentModeKHR`; the code inspects `MAILBOX` and `IMMEDIATE`
and falls back to `FIFO`. -/
inductive PresentMode where
  | immediate : PresentMode
  | mailbox : PresentMode
  | fifo : PresentMode
  | fifoRelaxed : PresentMode
  | otherMode : Nat → PresentMode
deriving DecidableEq

/-- Model of `vk::SharingMode`. -/
inductive SharingMode where
  | exclusive : SharingMode
  | concurrent : SharingMode
deriving DecidableEq

/-- Model of `vk::SurfaceFormatKHR`. -/
structure SurfaceFormat where
  format : Format
  colorSpace : ColorSpace
deriving DecidableEq

/-- Model of `vk::Extent2D`. -/
structure Extent2D where
  width : Nat
  height : Nat
deriving DecidableEq

/-- The fields of `vk::SurfaceCapabilitiesKHR` read by `choose_swapchain_extent`
and the image-count computation in `create_swapchain`. -/
structure SurfaceCapabilities where
  minImageCount : Nat
  maxImageCount : Nat
  currentExtent : Extent2D
  minImageExtent : Extent2D
  maxImageExtent : Extent2D
deriving DecidableEq

/-- Queue family indices, from `device_selection.rs` as used by `create_swapchain`. -/
structure QueueFamilies where
  graphics : Nat
  presentation : Nat
deriving DecidableEq

/-- Embedding of `nalgebra::clamp` (the exact branching of the library function
called at `swapchain.rs:315`): `if val > min { if val < max { val } else { max } } else { min }`. -/
def nalgebraClamp (val lo hi : Nat) : Nat :=
  if lo < val then (if val < hi then val else hi) else lo

/-- Embedding of `choose_swapchain_format` (`swapchain.rs:268`).
Returns the chosen format paired with whether the fallback warning was logged;
`none` models the panic of `formats[0]` on an empty slice. -/
def choose_swapchain_format (formats : List SurfaceFormat) :
    Option (SurfaceFormat × Bool) :=
  match formats.find? (fun f =>
      decide (f.format = Format.b8g8r8a8Unorm) &&
      decide (f.colorSpace = ColorSpace.srgbNonlinear)) with
  | some f => some (f, false)
  | none =>
    match formats with
    | [] => none
    | f :: _ => some (f, true)

/-- Embedding of `choose_swapchain_presentation_mode` (`swapchain.rs:287`). -/
def choose_swapchain_presentation_mode (modes : List PresentMode) : PresentMode :=
  match modes.find? (fun m => decide (m = PresentMode.mailbox)) with
  | some _ => PresentMode.mailbox
  | none =>
    match modes.find? (fun m => decide (m = PresentMode.immediate)) with
    | some _ => PresentMode.immediate
    | none => PresentMode.fifo

/-- Embedding of `choose_swapchain_extent` (`swapchain.rs:310`). -/
def choose_swapchain_extent (capabilities : SurfaceCapabilities) : Extent2D :=
  if capabilities.currentExtent.width ≠ U32_MAX then
    capabilities.currentExtent
  else
    { width := nalgebraClamp WINDOW_WIDTH
        capabilities.minImageExtent.width capabilities.maxImageExtent.width,
      height := nalgebraClamp WINDOW_HEIGHT
        capabilities.minImageExtent.height capabilities.maxImageExtent.height }

/-- Embedding of the sharing-mode selection in `create_swapchain` (`swapchain.rs:52`):
the pair `(image_sharing_mode, family_indices)` placed into the create info. -/
def swapchain_sharing_info (queue_families : QueueFamilies) :
    SharingMode × List Nat :=
  if queue_families.graphics ≠ queue_families.presentation then
    (SharingMode.exclusive, [queue_families.graphics, queue_families.presentation])
  else
    (SharingMode.exclusive, [])

/-- Model of `vk::Result` values that `draw_frame` distinguishes. -/
inductive VkResult where
  | success : VkResult
  | suboptimalKHR : VkResult
  | errorOutOfDateKHR : VkResult
  | otherResult : Nat → VkResult
deriving DecidableEq

/-- State of one fence as seen by the CPU: `signaled` mirrors the Vulkan fence status. -/
structure Fence where
  signaled : Bool
deriving DecidableEq

/-- Model of `SyncObjects` (`sync.rs:7`). -/
structure SyncObjects where
  image_available_semaphores : List Nat
  render_finished_semaphores : List Nat
  inflight_fences : List Fence
deriving DecidableEq

/-- Embedding of `create_sync_objects` (`sync.rs:15`): one semaphore pair and one
fence per frame slot, the fence created with `FenceCreateFlags::SIGNALED`. -/
def create_sync_objects : SyncObjects :=
  { image_available_semaphores := (List.range MAX_FRAMES_IN_FLIGHT).map (fun i => i),
    render_finished_semaphores := (List.range MAX_FRAMES_IN_FLIGHT).map (fun i => i),
    inflight_fences := List.replicate MAX_FRAMES_IN_FLIGHT { signaled := true } }

/-- Observable Vulkan calls made by `draw_frame` (`vulkan_app.rs:388`), in
program order. -/
inductive VkEvent where
  | fenceWait (slot : Nat) (timeout : Nat) (waitAll : Bool) : VkEvent
  | acquireImage (slot : Nat) : VkEvent
  | recreateSwapchain : VkEvent
  | updateUniform (imageIndex : Nat) : VkEvent
  | fenceReset (slot : Nat) : VkEvent
  | queueSubmit (slot : Nat) (imageIndex : Nat) : VkEvent
  | queuePresent (imageIndex : Nat) : VkEvent
deriving DecidableEq

/-- Results returned by the device for one `draw_frame` call. `acquireResult`
is the value of `acquire_next_image` (`Ok((index, is_sub_optimal))` or an error
code), `submitResult` that of `queue_submit`, `presentResult` that of
`queue_present` (`Ok(suboptimal)` or an error code). -/
structure DrawInputs where
  acquireResult : Except VkResult (Nat × Bool)
  submitResult : Except VkResult Unit
  presentResult : Except VkResult Bool

/-- Embedding of `draw_frame` (`vulkan_app.rs:388`): the trace of Vulkan calls
performed and the resulting `current_frame`, `none` when the call panics
(an `expect`/`panic!` arm is hit). The early `return` of the acquire
out-of-date arm skips everything after `recreate_swapchain`, including the
final frame-index increment. -/
def draw_frame (current_frame : Nat) (inp : DrawInputs) :
    List VkEvent × Option Nat :=
  let waitEv := VkEvent.fenceWait current_frame U64_MAX true
  match inp.acquireResult with
  | Except.error r =>
    if r = VkResult.errorOutOfDateKHR then
      ([waitEv, VkEvent.acquireImage current_frame, VkEvent.recreateSwapchain],
        some current_frame)
    else
      ([waitEv, VkEvent.acquireImage current_frame], none)
  | Except.ok (image_index, _is_sub_optimal) =>
    let pre := [waitEv, VkEvent.acquireImage current_frame,
      VkEvent.updateUniform image_index,
      VkEvent.fenceReset current_frame,
      VkEvent.queueSubmit current_frame image_index]
    match inp.submitResult with
    | Except.error _ => (pre, none)
    | Except.ok _ =>
      let evs := pre ++ [VkEvent.queuePresent image_index]
      match inp.presentResult with
      | Except.ok _ => (evs, some ((current_frame + 1) % MAX_FRAMES_IN_FLIGHT))
      | Except.error r =>
        if r = VkResult.errorOutOfDateKHR ∨ r = VkResult.suboptimalKHR then
          (evs ++ [VkEvent.recreateSwapchain],
            some ((current_frame + 1) % MAX_FRAMES_IN_FLIGHT))
        else
          (evs, none)

/-- Resource operations performed by `recreate_swapchain` and
`cleanup_swapchain` (`swapchain.rs:108` and `swapchain.rs:168`). -/
inductive RcEvent where
  | deviceWaitIdle : RcEvent
  | freeCommandBuffers : RcEvent
  | destroyFramebuffers : RcEvent
  | destroyPipeline : RcEvent
  | destroyPipelineLayout : RcEvent
  | destroyRenderPass : RcEvent
  | destroyImageViews : RcEvent
  | destroySwapchain : RcEvent
  | createSwapchain : RcEvent
  | createImageViews : RcEvent
  | createRenderPass : RcEvent
  | createPipelineAndLayout : RcEvent
  | createFramebuffers : RcEvent
  | createCommandBuffers : RcEvent
  | createUbo : RcEvent
deriving DecidableEq

/-- Embedding of `cleanup_swapchain` (`swapchain.rs:168`) as its sequence of
destruction calls, in program order. -/
def cleanup_swapchain : List RcEvent :=
  [RcEvent.freeCommandBuffers, RcEvent.destroyFramebuffers,
   RcEvent.destroyPipeline, RcEvent.destroyPipelineLayout,
   RcEvent.destroyRenderPass, RcEvent.destroyImageViews,
   RcEvent.destroySwapchain]

/-- Embedding of `recreate_swapchain` (`swapchain.rs:108`) as its sequence of
resource operations, in program order: device-idle wait, the cleanup calls,
then each re-creation call. -/
def recreate_swapchain : List RcEvent :=
  RcEvent.deviceWaitIdle :: cleanup_swapchain ++
    [RcEvent.createSwapchain, RcEvent.createImageViews, RcEvent.createRenderPass,
     RcEvent.createPipelineAndLayout, RcEvent.createFramebuffers,
     RcEvent.createCommandBuffers, RcEvent.createUbo]

/-- Classifies the destruction operations of `cleanup_swapchain`. -/
def RcEvent.isDestroy : RcEvent → Bool
  | RcEvent.freeCommandBuffers => true
  | RcEvent.destroyFramebuffers => true
  | RcEvent.destroyPipeline => true
  | RcEvent.destroyPipelineLayout => true
  | RcEvent.destroyRenderPass => true
  | RcEvent.destroyImageViews => true
  | RcEvent.destroySwapchain => true
  | _ => false

/-- Classifies the creation operations of `recreate_swapchain`. -/
def RcEvent.isCreate : RcEvent → Bool
  | RcEvent.createSwapchain => true
  | RcEvent.createImageViews => true
  | RcEvent.createRenderPass => true
  | RcEvent.createPipelineAndLayout => true
  | RcEvent.createFramebuffers => true
  | RcEvent.createCommandBuffers => true
  | RcEvent.createUbo => true
  | _ => false

/-- Buffer usage flags used by `buffers.rs`. -/
inductive BufUsage where
  | transferSrc : BufUsage
  | transferDst : BufUsage
  | vertexBuffer : BufUsage
  | indexBuffer : BufUsage
  | uniformBuffer : BufUsage
deriving DecidableEq

/-- Memory property flags used by `buffers.rs`. -/
inductive MemProp where
  | hostVisible : MemProp
  | hostCoherent : MemProp
  | deviceLocal : MemProp
deriving DecidableEq

/-- One live buffer together with its bound memory (the code always pairs a
`vk::Buffer` with one `vk::DeviceMemory`). `contents` are the bytes visible to
the device once all submitted work has completed. -/
structure BufRec where
  id : Nat
  size : Nat
  usage : List BufUsage
  props : List MemProp
  contents : List Nat
deriving DecidableEq

/-- Device state: the set of live buffer allocations, with a fresh-id counter. -/
structure GpuState where
  nextId : Nat
  buffers : List BufRec
deriving DecidableEq

/-- Looks up a live buffer by id. -/
def GpuState.lookup (s : GpuState) (bufferId : Nat) : Option BufRec :=
  s.buffers.find? (fun b => decide (b.id = bufferId))

/-- Embedding of `create_buffer` (`buffers.rs:299`): creates one buffer and
binds freshly allocated memory to it; contents start unspecified (zeros). -/
def create_buffer (s : GpuState) (size : Nat) (usage : List BufUsage)
    (props : List MemProp) : GpuState × Nat :=
  ({ nextId := s.nextId + 1,
     buffers := s.buffers ++
       [{ id := s.nextId, size := size, usage := usage, props := props,
          contents := List.replicate size 0 }] },
   s.nextId)

/-- Embedding of the `map_memory` / `copy_from_nonoverlapping` / `unmap_memory`
block of `create_vertex_buffer` (`buffers.rs:176`): the whole source slice is
written into the mapped buffer. -/
def write_buffer (s : GpuState) (bufferId : Nat) (data : List Nat) : GpuState :=
  { s with buffers := s.buffers.map (fun b =>
      if b.id = bufferId then { b with contents := data } else b) }

/-- Embedding of `copy_buffer` (`buffers.rs:349`): records a full-range
`cmd_copy_buffer` of `size` bytes at offset 0, submits it and blocks on
`queue_wait_idle`, so the destination contents are complete when it returns. -/
def copy_buffer (s : GpuState) (src dst size : Nat) : GpuState :=
  match s.lookup src with
  | none => s
  | some sb =>
    { s with buffers := s.buffers.map (fun b =>
        if b.id = dst then
          { b with contents := sb.contents.take size ++ b.contents.drop size }
        else b) }

/-- Embedding of `destroy_buffer` plus `free_memory` on the same allocation. -/
def destroy_buffer (s : GpuState) (bufferId : Nat) : GpuState :=
  { s with buffers := s.buffers.filter (fun b => decide (¬ b.id = bufferId)) }

/-- Observable steps of a staged upload, in program order. -/
inductive UploadEvent where
  | createBufferEv (bufferId size : Nat) (usage : List BufUsage) (props : List MemProp) : UploadEvent
  | mapWriteUnmap (bufferId : Nat) (bytes : List Nat) : UploadEvent
  | submitCopy (src dst size : Nat) : UploadEvent
  | queueWaitIdle : UploadEvent
  | destroyBufferEv (bufferId : Nat) : UploadEvent
deriving DecidableEq

/-- Shared body of `create_vertex_buffer` (`buffers.rs:157`) and
`create_index_buffer` (`buffers.rs:217`), which are textually identical except
for the destination usage flags: create a host-visible/host-coherent staging
buffer sized to the data, fill it, create the device-local destination, submit
the copy and block until the queue is idle, destroy the staging buffer, and
return the destination. -/
def staged_upload (dstUsage : List BufUsage) (s : GpuState) (data : List Nat) :
    GpuState × Nat × List UploadEvent :=
  let buffer_size := data.length
  let stagingProps := [MemProp.hostVisible, MemProp.hostCoherent]
  let r1 := create_buffer s buffer_size [BufUsage.transferSrc] stagingProps
  let s1 := r1.1
  let staging := r1.2
  let s2 := write_buffer s1 staging data
  let r3 := create_buffer s2 buffer_size dstUsage [MemProp.deviceLocal]
  let s3 := r3.1
  let dst := r3.2
  let s4 := copy_buffer s3 staging dst buffer_size
  let s5 := destroy_buffer s4 staging
  (s5, dst,
   [UploadEvent.createBufferEv staging buffer_size [BufUsage.transferSrc] stagingProps,
    UploadEvent.mapWriteUnmap staging data,
    UploadEvent.createBufferEv dst buffer_size dstUsage [MemProp.deviceLocal],
    UploadEvent.submitCopy staging dst buffer_size,
    UploadEvent.queueWaitIdle,
    UploadEvent.destroyBufferEv staging])

/-- Embedding of `create_vertex_buffer` (`buffers.rs:157`). -/
def create_vertex_buffer (s : GpuState) (data : List Nat) :
    GpuState × Nat × List UploadEvent :=
  staged_upload [BufUsage.transferDst, BufUsage.vertexBuffer] s data

/-- Embedding of `create_index_buffer` (`buffers.rs:217`). -/
def create_index_buffer (s : GpuState) (data : List Nat) :
    GpuState × Nat × List UploadEvent :=
  staged_upload [BufUsage.transferDst, BufUsage.indexBuffer] s data

/-! Helper lemmas. -/

/-- Helper: `find?` with an equality-to-`m` predicate finds `m` exactly when
`m` is in the list. -/
theorem find?_decide_eq {α : Type} [DecidableEq α] (m : α) (l : List α) :
    l.find? (fun a => decide (a = m)) = if m ∈ l then some m else none := by
  induction l with
  | nil => simp
  | cons x xs ih =>
    by_cases hx : x = m
    · subst hx
      rw [List.find?_cons_of_pos _ (by simp)]
      simp
    · rw [List.find?_cons_of_neg _ (by simp [hx])]
      rw [ih]
      by_cases hm : m ∈ xs
      · simp [hm, List.mem_cons]
      · have : ¬ m ∈ x :: xs := by
          simp only [List.mem_cons, not_or]
          exact ⟨fun h => hx h.symm, hm⟩
        simp [hm, this]

/-- Preferred surface format pair of `choose_swapchain_format`. -/
def preferredSurfaceFormat : SurfaceFormat :=
  { format := Format.b8g8r8a8Unorm, colorSpace := ColorSpace.srgbNonlinear }

/-- Helper: the search predicate of `choose_swapchain_format` tests exact
equality with the preferred pair. -/
theorem surface_format_pred_eq (f : SurfaceFormat) :
    (decide (f.format = Format.b8g8r8a8Unorm) &&
      decide (f.colorSpace = ColorSpace.srgbNonlinear))
      = decide (f = preferredSurfaceFormat) := by
  cases f with
  | mk fmt cs =>
    by_cases h1 : fmt = Format.b8g8r8a8Unorm <;>
      by_cases h2 : cs = ColorSpace.srgbNonlinear <;>
        simp [preferredSurfaceFormat, SurfaceFormat.mk.injEq, h1, h2]

/-- Helper: `choose_swapchain_format` in membership form. -/
theorem choose_swapchain_format_eq (formats : List SurfaceFormat) :
    choose_swapchain_format formats =
      if preferredSurfaceFormat ∈ formats then some (preferredSurfaceFormat, false)
      else
        match formats with
        | [] => none
        | f :: _ => some (f, true) := by
  unfold choose_swapchain_format
  have hpred : (fun f : SurfaceFormat =>
      decide (f.format = Format.b8g8r8a8Unorm) &&
        decide (f.colorSpace = ColorSpace.srgbNonlinear))
      = (fun f : SurfaceFormat => decide (f = preferredSurfaceFormat)) :=
    funext surface_format_pred_eq
  rw [hpred, find?_decide_eq]
  by_cases h : preferredSurfaceFormat ∈ formats <;> simp [h]

/-- Helper: `nalgebra::clamp` on `Nat` computes the usual clamp when the
bounds are ordered. -/
theorem nalgebraClamp_eq (v lo hi : Nat) (h : lo ≤ hi) :
    nalgebraClamp v lo hi = max lo (min v hi) := by
  unfold nalgebraClamp
  split_ifs with h1 h2 <;> omega

/-! Claim theorems. -/

/-- Claim C6: for every configuration of queue families, swapchain creation
sets the image sharing mode to `EXCLUSIVE` — both when the graphics and
presentation families are equal and when they differ; in the differing case
both family indices are listed in the create info, but the sharing mode is
still `EXCLUSIVE`, never `CONCURRENT`. -/
theorem sharing_mode_always_exclusive (qf : QueueFamilies) :
    (swapchain_sharing_info qf).1 = SharingMode.exclusive ∧
    (qf.graphics ≠ qf.presentation →
      (swapchain_sharing_info qf).2 = [qf.graphics, qf.presentation]) ∧
    (qf.graphics = qf.presentation → (swapchain_sharing_info qf).2 = []) := by
  unfold swapchain_sharing_info
  by_cases h : qf.graphics = qf.presentation <;> simp [h]

/-- Witness for `sharing_mode_always_exclusive` at distinct families 0 and 1. -/
theorem sharing_mode_always_exclusive_witness :
    (swapchain_sharing_info { graphics := 0, presentation := 1 }).1
        = SharingMode.exclusive ∧
    (swapchain_sharing_info { graphics := 0, presentation := 1 }).2 = [0, 1] :=
  ⟨(sharing_mode_always_exclusive { graphics := 0, presentation := 1 }).1,
   (sharing_mode_always_exclusive { graphics := 0, presentation := 1 }).2.1
     (by decide)⟩

/-- Claim C7: presentation-mode selection is deterministic with fixed
priority: `MAILBOX` if present anywhere in the list, else `IMMEDIATE` if
present, else `FIFO` unconditionally. -/
theorem presentation_mode_priority (modes : List PresentMode) :
    choose_swapchain_presentation_mode modes =
      if PresentMode.mailbox ∈ modes then PresentMode.mailbox
      else if PresentMode.immediate ∈ modes then PresentMode.immediate
      else PresentMode.fifo := by
  unfold choose_swapchain_presentation_mode
  rw [find?_decide_eq, find?_decide_eq]
  by_cases h1 : PresentMode.mailbox ∈ modes <;>
    by_cases h2 : PresentMode.immediate ∈ modes <;> simp [h1, h2]

/-- Claim C8: format selection returns the preferred pair
(`B8G8R8A8_UNORM`, `SRGB_NONLINEAR`) whenever that exact pair occurs anywhere
in the list, regardless of position; otherwise it returns the first list entry
together with the fallback warning. -/
theorem format_selection_prefers_exact_pair (formats : List SurfaceFormat)
    (f : SurfaceFormat) (rest : List SurfaceFormat) :
    (preferredSurfaceFormat ∈ formats →
      choose_swapchain_format formats = some (preferredSurfaceFormat, false)) ∧
    (preferredSurfaceFormat ∉ formats → formats = f :: rest →
      choose_swapchain_format formats = some (f, true)) := by
  constructor
  · intro h
    rw [choose_swapchain_format_eq]
    simp [h]
  · intro h hcons
    subst hcons
    rw [choose_swapchain_format_eq]
    simp [h]

/-- Witness for `format_selection_prefers_exact_pair`: the preferred pair is
selected from the middle of a list, and a list without it falls back to its
first entry. -/
theorem format_selection_prefers_exact_pair_witness :
    choose_swapchain_format
        [{ format := Format.otherFormat 44, colorSpace := ColorSpace.srgbNonlinear },
         preferredSurfaceFormat,
         { format := Format.b8g8r8a8Unorm, colorSpace := ColorSpace.otherColorSpace 7 }]
      = some (preferredSurfaceFormat, false) ∧
    choose_swapchain_format
        [{ format := Format.otherFormat 44, colorSpace := ColorSpace.srgbNonlinear },
         { format := Format.b8g8r8a8Unorm, colorSpace := ColorSpace.otherColorSpace 7 }]
      = some ({ format := Format.otherFormat 44, colorSpace := ColorSpace.srgbNonlinear }, true) :=
  ⟨(format_selection_prefers_exact_pair
      [{ format := Format.otherFormat 44, colorSpace := ColorSpace.srgbNonlinear },
       preferredSurfaceFormat,
       { format := Format.b8g8r8a8Unorm, colorSpace := ColorSpace.otherColorSpace 7 }]
      { format := Format.otherFormat 44, colorSpace := ColorSpace.srgbNonlinear }
      []).1 (by decide),
   (format_selection_prefers_exact_pair
      [{ format := Format.otherFormat 44, colorSpace := ColorSpace.srgbNonlinear },
       { format := Format.b8g8r8a8Unorm, colorSpace := ColorSpace.otherColorSpace 7 }]
      { format := Format.otherFormat 44, colorSpace := ColorSpace.srgbNonlinear }
      [{ format := Format.b8g8r8a8Unorm, colorSpace := ColorSpace.otherColorSpace 7 }]).2
      (by decide) rfl⟩

/-- Claim C9: extent selection returns the surface-reported current extent
unchanged whenever its width differs from the `u32` maximum sentinel, even if
it differs from the configured window size; when the sentinel marks the extent
undefined, it returns the configured desired extent (800 × 600) with each
component clamped into the surface's reported min/max bounds. -/
theorem extent_selection (caps : SurfaceCapabilities) :
    (caps.currentExtent.width ≠ U32_MAX →
      choose_swapchain_extent caps = caps.currentExtent) ∧
    (caps.currentExtent.width = U32_MAX →
      caps.minImageExtent.width ≤ caps.maxImageExtent.width →
      caps.minImageExtent.height ≤ caps.maxImageExtent.height →
      (choose_swapchain_extent caps).width
          = max caps.minImageExtent.width (min WINDOW_WIDTH caps.maxImageExtent.width) ∧
      (choose_swapchain_extent caps).height
          = max caps.minImageExtent.height (min WINDOW_HEIGHT caps.maxImageExtent.height) ∧
      caps.minImageExtent.width ≤ (choose_swapchain_extent caps).width ∧
      (choose_swapchain_extent caps).width ≤ caps.maxImageExtent.width ∧
      caps.minImageExtent.height ≤ (choose_swapchain_extent caps).height ∧
      (choose_swapchain_extent caps).height ≤ caps.maxImageExtent.height) := by
  constructor
  · intro h
    unfold choose_swapchain_extent
    simp [h]
  · intro h hw hh
    unfold choose_swapchain_extent
    simp only [h, ne_eq, not_true_eq_false, if_false]
    rw [nalgebraClamp_eq _ _ _ hw, nalgebraClamp_eq _ _ _ hh]
    refine ⟨rfl, rfl, ?_, ?_, ?_, ?_⟩ <;> omega

/-- Witness for `extent_selection`: with the sentinel current extent and
bounds [100, 700] × [100, 1000], the desired 800 × 600 is clamped to
700 × 600. -/
theorem extent_selection_witness :
    choose_swapchain_extent
        { minImageCount := 2, maxImageCount := 8,
          currentExtent := { width := U32_MAX, height := 0 },
          minImageExtent := { width := 100, height := 100 },
          maxImageExtent := { width := 700, height := 1000 } }
      = { width := 700, height := 600 } := by
  have h := (extent_selection
      { minImageCount := 2, maxImageCount := 8,
        currentExtent := { width := U32_MAX, height := 0 },
        minImageExtent := { width := 100, height := 100 },
        maxImageExtent := { width := 700, height := 1000 } }).2
      rfl (by decide) (by decide)
  have hw := h.1
  have hh := h.2.1
  cases he : choose_swapchain_extent
      { minImageCount := 2, maxImageCount := 8,
        currentExtent := { width := U32_MAX, height := 0 },
        minImageExtent := { width := 100, height := 100 },
        maxImageExtent := { width := 700, height := 1000 } } with
  | mk w hgt =>
    rw [he] at hw hh
    simp at hw hh
    simp [hw, hh]
    constructor <;> decide

/-- Claim C10: surface-format selection is partial: on the empty candidate
list its fallback indexing panics (modelled as `none`); for every non-empty
list it returns a value, and that value is an element of the input list. -/
theorem format_selection_partiality :
    choose_swapchain_format ([] : List SurfaceFormat) = none ∧
    ∀ (formats : List SurfaceFormat), formats ≠ [] →
      ∃ r w, choose_swapchain_format formats = some (r, w) ∧ r ∈ formats := by
  refine ⟨rfl, ?_⟩
  intro formats hne
  rw [choose_swapchain_format_eq]
  by_cases h : preferredSurfaceFormat ∈ formats
  · exact ⟨preferredSurfaceFormat, false, by simp [h], h⟩
  · cases formats with
    | nil => exact absurd rfl hne
    | cons f rest => exact ⟨f, true, by simp [h], List.mem_cons_self f rest⟩

/-- Witness for `format_selection_partiality` on a singleton list without the
preferred pair. -/
theorem format_selection_partiality_witness :
    ∃ r w, choose_swapchain_format
        [{ format := Format.otherFormat 9, colorSpace := ColorSpace.otherColorSpace 3 }]
        = some (r, w) ∧
      r ∈ [{ format := Format.otherFormat 9, colorSpace := ColorSpace.otherColorSpace 3 }] :=
  format_selection_partiality.2
    [{ format := Format.otherFormat 9, colorSpace := ColorSpace.otherColorSpace 3 }]
    (by decide)

/-- Helper: the wait/reset/submit prefix ordering inside the submit-path event
list of `draw_frame`, with an arbitrary suffix. -/
theorem submit_sublist_aux (cf i : Nat) (rest : List VkEvent) :
    List.Sublist
      [VkEvent.fenceWait cf U64_MAX true, VkEvent.fenceReset cf,
       VkEvent.queueSubmit cf i]
      ([VkEvent.fenceWait cf U64_MAX true, VkEvent.acquireImage cf,
        VkEvent.updateUniform i, VkEvent.fenceReset cf,
        VkEvent.queueSubmit cf i] ++ rest) :=
  .cons₂ _ (.cons _ (.cons _ (.cons₂ _ (.cons₂ _ (List.nil_sublist rest)))))

/-- Claim C1: every in-flight fence is created signaled and there is exactly
one per frame slot; whenever `draw_frame` submits GPU work for a slot, that
slot is the current frame, and the submission is preceded by an unbounded
(`u64::MAX`, wait-all) fence wait on that slot's fence and then by the reset of
that fence, in that order. -/
theorem inflight_fence_guard :
    create_sync_objects.inflight_fences.length = MAX_FRAMES_IN_FLIGHT ∧
    (∀ f ∈ create_sync_objects.inflight_fences, f.signaled = true) ∧
    ∀ (current_frame : Nat) (acq : Except VkResult (Nat × Bool))
      (sub : Except VkResult Unit) (pres : Except VkResult Bool)
      (slot image_index : Nat),
      VkEvent.queueSubmit slot image_index ∈
        (draw_frame current_frame ⟨acq, sub, pres⟩).1 →
      slot = current_frame ∧
      List.Sublist
        [VkEvent.fenceWait slot U64_MAX true, VkEvent.fenceReset slot,
         VkEvent.queueSubmit slot image_index]
        (draw_frame current_frame ⟨acq, sub, pres⟩).1 := by
  refine ⟨by decide, by decide, ?_⟩
  intro cf acq sub pres slot ii h
  cases acq with
  | error r =>
    by_cases hr : r = VkResult.errorOutOfDateKHR <;> simp [draw_frame, hr] at h
  | ok p =>
    obtain ⟨i, b⟩ := p
    cases sub with
    | error e =>
      simp [draw_frame] at h
      obtain ⟨h1, h2⟩ := h
      subst h1; subst h2
      exact ⟨rfl, by simpa [draw_frame] using submit_sublist_aux cf i []⟩
    | ok u =>
      cases pres with
      | ok v =>
        simp [draw_frame] at h
        obtain ⟨h1, h2⟩ := h
        subst h1; subst h2
        exact ⟨rfl, by simpa [draw_frame] using
          submit_sublist_aux cf i [VkEvent.queuePresent i]⟩
      | error r =>
        by_cases hr : r = VkResult.errorOutOfDateKHR ∨ r = VkResult.suboptimalKHR
        · rcases hr with hr | hr
          all_goals
            subst hr
            simp [draw_frame] at h
            obtain ⟨h1, h2⟩ := h
            subst h1; subst h2
            exact ⟨rfl, by simpa [draw_frame] using
              (submit_sublist_aux cf i
                [VkEvent.queuePresent i, VkEvent.recreateSwapchain])⟩
        · simp [draw_frame, hr] at h
          obtain ⟨h1, h2⟩ := h
          subst h1; subst h2
          exact ⟨rfl, by simpa [draw_frame, hr] using
            submit_sublist_aux cf i [VkEvent.queuePresent i]⟩

/-- Witness for `inflight_fence_guard`: the ordering on a fully successful
frame at slot 0 with image index 5. -/
theorem inflight_fence_guard_witness :
    List.Sublist
      [VkEvent.fenceWait 0 U64_MAX true, VkEvent.fenceReset 0,
       VkEvent.queueSubmit 0 5]
      (draw_frame 0 ⟨Except.ok (5, false), Except.ok (), Except.ok false⟩).1 :=
  (inflight_fence_guard.2.2 0 (Except.ok (5, false)) (Except.ok ())
    (Except.ok false) 0 5 (by decide)).2

/-- Claim C2: swapchain recreation first waits for the device to be idle, then
performs the destructions in dependent-first order (command buffers and
framebuffers, then pipeline and pipeline layout, then render pass, then image
views, then the swapchain itself), and every creation happens strictly after
every destruction. -/
theorem recreate_destroys_before_creating :
    recreate_swapchain.head? = some RcEvent.deviceWaitIdle ∧
    List.Sublist
      [RcEvent.freeCommandBuffers, RcEvent.destroyFramebuffers,
       RcEvent.destroyPipeline, RcEvent.destroyPipelineLayout,
       RcEvent.destroyRenderPass, RcEvent.destroyImageViews,
       RcEvent.destroySwapchain] recreate_swapchain ∧
    List.Sublist
      [RcEvent.destroySwapchain, RcEvent.createSwapchain, RcEvent.createImageViews,
       RcEvent.createRenderPass, RcEvent.createPipelineAndLayout,
       RcEvent.createFramebuffers, RcEvent.createCommandBuffers] recreate_swapchain ∧
    List.Pairwise (fun a b => a.isCreate = true → b.isDestroy = false)
      recreate_swapchain :=
  ⟨rfl, by decide, by decide, by decide⟩

/-- Claim C3 counterexample: a successful acquire that reports the swapchain
suboptimal (the flag the code names `_is_sub_optimal` and discards) does not
trigger recreation, and an acquire returning the suboptimal error code panics
instead of recreating. -/
theorem acquire_suboptimal_not_recoverable :
    (VkEvent.recreateSwapchain ∉
      (draw_frame 0 ⟨Except.ok (0, true), Except.ok (), Except.ok false⟩).1) ∧
    ((draw_frame 0 ⟨Except.error VkResult.suboptimalKHR, Except.ok (),
        Except.ok false⟩).2 = none) ∧
    (VkEvent.recreateSwapchain ∉
      (draw_frame 0 ⟨Except.error VkResult.suboptimalKHR, Except.ok (),
        Except.ok false⟩).1) :=
  ⟨by decide, by decide, by decide⟩

/-- Claim C3 (amended): an out-of-date error from acquire, or an out-of-date
or suboptimal error from present, triggers swapchain recreation and the loop
continues; the suboptimal flag of a successful acquire is ignored and does not
trigger recreation; any other error from acquire, submit, or present is fatal
(the call panics). -/
theorem draw_frame_error_policy (cf : Nat)
    (acq : Except VkResult (Nat × Bool)) (sub : Except VkResult Unit)
    (pres : Except VkResult Bool) :
    (acq = Except.error VkResult.errorOutOfDateKHR →
      VkEvent.recreateSwapchain ∈ (draw_frame cf ⟨acq, sub, pres⟩).1 ∧
      (draw_frame cf ⟨acq, sub, pres⟩).2 = some cf) ∧
    (∀ r, acq = Except.error r → r ≠ VkResult.errorOutOfDateKHR →
      (draw_frame cf ⟨acq, sub, pres⟩).2 = none ∧
      VkEvent.recreateSwapchain ∉ (draw_frame cf ⟨acq, sub, pres⟩).1) ∧
    (∀ i b, acq = Except.ok (i, b) →
      (∀ e, sub = Except.error e →
        (draw_frame cf ⟨acq, sub, pres⟩).2 = none) ∧
      (sub = Except.ok () →
        (∀ v, pres = Except.ok v →
          VkEvent.recreateSwapchain ∉ (draw_frame cf ⟨acq, sub, pres⟩).1 ∧
          (draw_frame cf ⟨acq, sub, pres⟩).2
            = some ((cf + 1) % MAX_FRAMES_IN_FLIGHT)) ∧
        (∀ r, pres = Except.error r →
          ((r = VkResult.errorOutOfDateKHR ∨ r = VkResult.suboptimalKHR) →
            VkEvent.recreateSwapchain ∈ (draw_frame cf ⟨acq, sub, pres⟩).1 ∧
            (draw_frame cf ⟨acq, sub, pres⟩).2
              = some ((cf + 1) % MAX_FRAMES_IN_FLIGHT)) ∧
          (¬(r = VkResult.errorOutOfDateKHR ∨ r = VkResult.suboptimalKHR) →
            (draw_frame cf ⟨acq, sub, pres⟩).2 = none)))) := by
  refine ⟨?_, ?_, ?_⟩
  · intro h
    subst h
    simp [draw_frame]
  · intro r h hr
    subst h
    simp [draw_frame, hr]
  · intro i b h
    subst h
    refine ⟨?_, ?_⟩
    · intro e he
      subst he
      simp [draw_frame]
    · intro hs
      subst hs
      refine ⟨?_, ?_⟩
      · intro v hv
        subst hv
        simp [draw_frame]
      · intro r hr
        subst hr
        constructor
        · intro hrec
          rcases hrec with h' | h' <;> subst h' <;> simp [draw_frame]
        · intro hrec
          simp [draw_frame, hrec]

/-- Witness for `draw_frame_error_policy`: the acquire out-of-date branch at
slot 0 recreates the swapchain and the loop continues with the index intact. -/
theorem draw_frame_error_policy_witness :
    VkEvent.recreateSwapchain ∈
      (draw_frame 0 ⟨Except.error VkResult.errorOutOfDateKHR, Except.ok (),
        Except.ok false⟩).1 ∧
    (draw_frame 0 ⟨Except.error VkResult.errorOutOfDateKHR, Except.ok (),
      Except.ok false⟩).2 = some 0 :=
  (draw_frame_error_policy 0 (Except.error VkResult.errorOutOfDateKHR)
    (Except.ok ()) (Except.ok false)).1 rfl

/-- Claim C4 counterexample: on an invocation where acquire reports the
swapchain out of date, `draw_frame` returns early and the current frame index
stays 0 instead of advancing to `(0 + 1) % MAX_FRAMES_IN_FLIGHT = 1`. -/
theorem acquire_stale_skips_advance :
    ¬ ((draw_frame 0 ⟨Except.error VkResult.errorOutOfDateKHR, Except.ok (),
        Except.ok false⟩).2 = some ((0 + 1) % MAX_FRAMES_IN_FLIGHT)) := by
  decide

/-- Claim C4 (amended): every `draw_frame` invocation that returns normally
advances the frame slot index by exactly one modulo `MAX_FRAMES_IN_FLIGHT`,
except the acquire-out-of-date early return, which leaves the index
unchanged. -/
theorem draw_frame_advance (cf : Nat)
    (acq : Except VkResult (Nat × Bool)) (sub : Except VkResult Unit)
    (pres : Except VkResult Bool) (n : Nat)
    (h : (draw_frame cf ⟨acq, sub, pres⟩).2 = some n) :
    (acq = Except.error VkResult.errorOutOfDateKHR ∧ n = cf) ∨
    (acq ≠ Except.error VkResult.errorOutOfDateKHR ∧
      n = (cf + 1) % MAX_FRAMES_IN_FLIGHT) := by
  cases acq with
  | error r =>
    by_cases hr : r = VkResult.errorOutOfDateKHR
    · subst hr
      simp [draw_frame] at h
      exact Or.inl ⟨rfl, h.symm⟩
    · simp [draw_frame, hr] at h
  | ok p =>
    obtain ⟨i, b⟩ := p
    cases sub with
    | error e => simp [draw_frame] at h
    | ok u =>
      cases pres with
      | ok v =>
        simp [draw_frame] at h
        exact Or.inr ⟨by simp, h.symm⟩
      | error r =>
        by_cases hr : r = VkResult.errorOutOfDateKHR ∨ r = VkResult.suboptimalKHR
        · rcases hr with hr | hr
          all_goals
            subst hr
            simp [draw_frame] at h
            exact Or.inr ⟨by simp, h.symm⟩
        · simp [draw_frame, hr] at h

/-- Witness for `draw_frame_advance`: a fully successful frame at slot 0
advances the index to 1. -/
theorem draw_frame_advance_witness :
    ((Except.ok (3, false) : Except VkResult (Nat × Bool))
        = Except.error VkResult.errorOutOfDateKHR ∧ 1 = 0) ∨
    ((Except.ok (3, false) : Except VkResult (Nat × Bool))
        ≠ Except.error VkResult.errorOutOfDateKHR ∧
      1 = (0 + 1) % MAX_FRAMES_IN_FLIGHT) :=
  draw_frame_advance 0 (Except.ok (3, false)) (Except.ok ())
    (Except.ok false) 1 (by decide)

/-- Helper: mapping a function that fixes every element of a list is the
identity on that list. -/
theorem map_id_of_mem {α : Type} (l : List α) (f : α → α)
    (h : ∀ x ∈ l, f x = x) : l.map f = l := by
  induction l with
  | nil => rfl
  | cons x xs ih =>
    simp only [List.map_cons]
    rw [h x (List.mem_cons_self x xs),
      ih fun y hy => h y (List.mem_cons_of_mem x hy)]

/-- Helper: filtering with a predicate satisfied by every element of a list is
the identity on that list. -/
theorem filter_id_of_mem {α : Type} (l : List α) (p : α → Bool)
    (h : ∀ x ∈ l, p x = true) : l.filter p = l := by
  induction l with
  | nil => rfl
  | cons x xs ih =>
    rw [List.filter_cons, if_pos (h x (List.mem_cons_self x xs)),
      ih fun y hy => h y (List.mem_cons_of_mem x hy)]

/-- Helper: full computation of `staged_upload` on any state whose live buffer
ids are below the fresh-id counter: the net effect is exactly one new
device-local buffer holding a copy of the data, and the recorded events are
the create/fill/create/copy/wait/destroy sequence. -/
theorem staged_upload_spec (dstUsage : List BufUsage) (s : GpuState)
    (data : List Nat) (hInv : ∀ b ∈ s.buffers, b.id < s.nextId) :
    staged_upload dstUsage s data =
      ({ nextId := s.nextId + 2,
         buffers := s.buffers ++
           [{ id := s.nextId + 1, size := data.length, usage := dstUsage,
              props := [MemProp.deviceLocal], contents := data }] },
       s.nextId + 1,
       [UploadEvent.createBufferEv s.nextId data.length [BufUsage.transferSrc]
          [MemProp.hostVisible, MemProp.hostCoherent],
        UploadEvent.mapWriteUnmap s.nextId data,
        UploadEvent.createBufferEv (s.nextId + 1) data.length dstUsage
          [MemProp.deviceLocal],
        UploadEvent.submitCopy s.nextId (s.nextId + 1) data.length,
        UploadEvent.queueWaitIdle,
        UploadEvent.destroyBufferEv s.nextId]) := by
  have hmapw : s.buffers.map (fun b =>
      if b.id = s.nextId then
        { id := b.id, size := b.size, usage := b.usage, props := b.props,
          contents := data }
      else b) = s.buffers :=
    map_id_of_mem _ _ (fun b hb => if_neg (Nat.ne_of_lt (hInv b hb)))
  have hfind : List.find? (fun b => decide (b.id = s.nextId)) s.buffers = none :=
    List.find?_eq_none.mpr (fun b hb => by
      simp only [decide_eq_true_eq]
      exact Nat.ne_of_lt (hInv b hb))
  have h01 : ¬ (s.nextId = s.nextId + 1) := by omega
  have hdropr : List.drop data.length (List.replicate data.length (0 : Nat)) = [] := by
    simp
  have hmapc : s.buffers.map (fun b =>
      if b.id = s.nextId + 1 then
        { id := b.id, size := b.size, usage := b.usage, props := b.props,
          contents := data ++ List.drop data.length b.contents }
      else b) = s.buffers :=
    map_id_of_mem _ _ (fun b hb =>
      if_neg (Nat.ne_of_lt (Nat.lt_succ_of_lt (hInv b hb))))
  have hfilter : s.buffers.filter (fun b => decide (¬ b.id = s.nextId))
      = s.buffers :=
    filter_id_of_mem _ _ (fun b hb => by
      simp only [decide_eq_true_eq]
      exact Nat.ne_of_lt (hInv b hb))
  simp only [staged_upload, create_buffer, write_buffer, copy_buffer,
    destroy_buffer, GpuState.lookup, List.map_append, List.map_cons,
    List.map_nil, hmapw, List.find?_append, hfind, List.find?_cons,
    List.append_assoc, List.cons_append, List.nil_append,
    if_true, eq_self_iff_true, decide_True, decide_False, Nat.succ_ne_self,
    Option.none_or, List.find?_nil, List.filter_append, List.filter_cons,
    List.take_length, List.drop_length, hdropr, hmapc, hfilter, h01,
    not_false_eq_true, not_true, List.filter_nil, List.append_nil, if_false]
  simp

/-- Claim C5: each staged upload (vertex and index buffer creation) creates a
host-visible, host-coherent staging buffer sized exactly to the data, fills it
byte-for-byte, submits the copy and blocks until the queue is idle, leaves the
destination device-local buffer fully populated with the data, and destroys
the staging buffer before returning, so the net number of live allocations
grows by exactly one. -/
theorem staged_upload_guarantee (s : GpuState) (data : List Nat)
    (hInv : ∀ b ∈ s.buffers, b.id < s.nextId) :
    ((create_vertex_buffer s data).1.buffers.length = s.buffers.length + 1 ∧
     (create_index_buffer s data).1.buffers.length = s.buffers.length + 1) ∧
    (∃ vb, GpuState.lookup (create_vertex_buffer s data).1
        (create_vertex_buffer s data).2.1 = some vb ∧
      vb.contents = data ∧ vb.size = data.length ∧
      vb.props = [MemProp.deviceLocal] ∧
      vb.usage = [BufUsage.transferDst, BufUsage.vertexBuffer]) ∧
    (∃ st, (create_vertex_buffer s data).2.2 =
        [UploadEvent.createBufferEv st data.length [BufUsage.transferSrc]
           [MemProp.hostVisible, MemProp.hostCoherent],
         UploadEvent.mapWriteUnmap st data,
         UploadEvent.createBufferEv (create_vertex_buffer s data).2.1
           data.length [BufUsage.transferDst, BufUsage.vertexBuffer]
           [MemProp.deviceLocal],
         UploadEvent.submitCopy st (create_vertex_buffer s data).2.1 data.length,
         UploadEvent.queueWaitIdle,
         UploadEvent.destroyBufferEv st] ∧
      ∀ b ∈ (create_vertex_buffer s data).1.buffers, b.id ≠ st) := by
  have hv := staged_upload_spec [BufUsage.transferDst, BufUsage.vertexBuffer]
    s data hInv
  have hi := staged_upload_spec [BufUsage.transferDst, BufUsage.indexBuffer]
    s data hInv
  have hfind1 : List.find? (fun b => decide (b.id = s.nextId + 1)) s.buffers
      = none :=
    List.find?_eq_none.mpr (fun b hb => by
      simp only [decide_eq_true_eq]
      exact Nat.ne_of_lt (Nat.lt_succ_of_lt (hInv b hb)))
  refine ⟨⟨?_, ?_⟩, ?_, ?_⟩
  · simp [create_vertex_buffer, hv]
  · simp [create_index_buffer, hi]
  · have hlook : GpuState.lookup (create_vertex_buffer s data).1
        (create_vertex_buffer s data).2.1
        = some { id := s.nextId + 1, size := data.length,
                 usage := [BufUsage.transferDst, BufUsage.vertexBuffer],
                 props := [MemProp.deviceLocal], contents := data } := by
      simp [create_vertex_buffer, hv, GpuState.lookup, List.find?_append, hfind1]
    exact ⟨_, hlook, rfl, rfl, rfl, rfl⟩
  · refine ⟨s.nextId, ?_, ?_⟩
    · simp [create_vertex_buffer, hv]
    · intro b hb
      simp only [create_vertex_buffer, hv, List.mem_append,
        List.mem_singleton] at hb
      rcases hb with hb | hb
      · exact Nat.ne_of_lt (hInv b hb)
      · subst hb
        simp

/-- Witness for `staged_upload_guarantee`: uploading three bytes into an empty
device state yields exactly one live allocation. -/
theorem staged_upload_guarantee_witness :
    (create_vertex_buffer { nextId := 0, buffers := [] } [1, 2, 3]).1.buffers.length
      = ([] : List BufRec).length + 1 :=
  (staged_upload_guarantee { nextId := 0, buffers := [] } [1, 2, 3]
    (by simp)).1.1

end AlEngine

